import Mathlib

/-
Verification development for the antigravity-claude-proxy core.

The definitions below are shallow embeddings of the JavaScript source:
pure string helpers become Lean functions on `String` / `List Char`,
the retry loop of `throttledFetch` becomes a fueled recursion over a
script of attempt outcomes, the `TrafficShaper` worker becomes a
schedule computation over rational timestamps, and randomness
(`Math.random()`, `crypto.randomUUID()`) is made explicit as entropy
parameters.  Components whose implementation file is absent from the
snapshot (the account pool and the response converter) are modelled
from the specification text; their doc comments say so.
-/

/-- ASCII lower-casing of one character, as JavaScript
`String.prototype.toLowerCase` acts on the ASCII range. -/
def lowerChar (c : Char) : Char :=
  if 65 ≤ c.toNat ∧ c.toNat ≤ 90 then Char.ofNat (c.toNat + 32) else c

/-- ASCII upper-casing of one character, used to state case-insensitivity. -/
def upperChar (c : Char) : Char :=
  if 97 ≤ c.toNat ∧ c.toNat ≤ 122 then Char.ofNat (c.toNat - 32) else c

/-- Character data of a string lower-cased, embedding `msg.toLowerCase()`. -/
def lowerStr (s : String) : List Char := s.data.map lowerChar

/-- Does the first list start with the second?  Embeds JavaScript
`String.prototype.startsWith` on character data. -/
def startsWithList : List Char → List Char → Bool
  | _, [] => true
  | [], _ :: _ => false
  | c :: cs, d :: ds => c == d && startsWithList cs ds

/-- Does the needle occur as a contiguous substring of the haystack?
Embeds JavaScript `String.prototype.includes` on character data. -/
def hasSub (needle : List Char) : List Char → Bool
  | [] => needle.isEmpty
  | c :: t => startsWithList (c :: t) needle || hasSub needle t

/-- `hay.includes(needle)` on strings. -/
def strIncludes (hay needle : String) : Bool := hasSub needle.data hay.data

/-- Embeds `isNetworkError` from `src/utils/helpers.js` (lines 66-76):
lower-case the message and test the six transient-network substrings. -/
def isNetworkError (message : String) : Bool :=
  let msg := lowerStr message
  hasSub "fetch failed".data msg ||
  hasSub "network error".data msg ||
  hasSub "econnreset".data msg ||
  hasSub "etimedout".data msg ||
  hasSub "socket hang up".data msg ||
  hasSub "timeout".data msg

/-- A JavaScript value that can sit in the `message` property of an
error-like object: absent properties read as `undefined`. -/
inductive JsStringValue where
  | undefinedV
  | nullV
  | strV (s : String)
deriving DecidableEq

/-- JavaScript evaluation of `x.toLowerCase()`: member access on
`undefined` or `null` throws a TypeError; on a string it lower-cases. -/
def jsToLowerCase : JsStringValue → Except String (List Char)
  | .undefinedV => .error "TypeError"
  | .nullV => .error "TypeError"
  | .strV s => .ok (lowerStr s)

/-- Embeds `isNetworkError` as executed by the JavaScript engine when the
argument's `message` property holds an arbitrary value: the body evaluates
`error.message.toLowerCase()` unguarded before the substring tests. -/
def isNetworkErrorJs (message : JsStringValue) : Except String Bool :=
  match jsToLowerCase message with
  | .error e => .error e
  | .ok msg =>
      .ok (hasSub "fetch failed".data msg ||
           hasSub "network error".data msg ||
           hasSub "econnreset".data msg ||
           hasSub "etimedout".data msg ||
           hasSub "socket hang up".data msg ||
           hasSub "timeout".data msg)

/-- Outcome of one network attempt inside `throttledFetch`: either a
response carrying an HTTP status, or an error thrown by the stream. -/
inductive FetchOutcome where
  | resp (status : Nat)
  | err (message : String)
deriving DecidableEq

/-- `MAX_RETRIES` from `src/utils/helpers.js` line 107. -/
def MAX_RETRIES : Nat := 2

/-- The statuses retried by `throttledFetch` (helpers.js line 145). -/
def retryStatuses : List Nat := [500, 502, 503, 504]

/-- Message of the synthetic error thrown for a retryable status
(`new Error` with a template string, helpers.js line 146). -/
def httpStatusMessage (status : Nat) : String := "HTTP " ++ toString status

/-- The try-block of one iteration of the `throttledFetch` loop: a
retryable status below the last attempt is converted into a thrown
synthetic error, anything else is returned to the caller. -/
def tryAttempt (attempt : Nat) : FetchOutcome → Except String Nat
  | .resp s =>
      if attempt < MAX_RETRIES ∧ s ∈ retryStatuses then
        .error (httpStatusMessage s)
      else .ok s
  | .err m => .error m

/-- The catch-block retry test of `throttledFetch` (helpers.js lines
153-156): retry when the message starts with `HTTP 5` or the error is a
network error. -/
def retryOnError (m : String) : Bool :=
  startsWithList m.data "HTTP 5".data || isNetworkError m

/-- The attempt loop of `throttledFetch` (helpers.js lines 111-169).
`script` gives the outcome of each attempt, `fuel` bounds the remaining
iterations (the loop runs `attempt = 0, 1, 2`, so fuel `MAX_RETRIES + 1`
is never exhausted), and the result is paired with the number of
attempts performed. -/
def fetchLoop (script : Nat → FetchOutcome) : Nat → Nat → Except String Nat × Nat
  | 0, attempt => (.error "", attempt)
  | fuel + 1, attempt =>
    match tryAttempt attempt (script attempt) with
    | .ok s => (.ok s, attempt + 1)
    | .error m =>
      if attempt < MAX_RETRIES ∧ retryOnError m then
        fetchLoop script fuel (attempt + 1)
      else (.error m, attempt + 1)

/-- `throttledFetch` restricted to its retry behaviour: run the attempt
loop from attempt 0. -/
def throttledFetchModel (script : Nat → FetchOutcome) : Except String Nat × Nat :=
  fetchLoop script (MAX_RETRIES + 1) 0

/-- The retry condition exactly as the specification states it: a
response status in the retry set, or a thrown error matching the
network-error predicate. -/
def specRetriable : FetchOutcome → Bool
  | .resp s => decide (s ∈ retryStatuses)
  | .err m => isNetworkError m

/-- The retry condition the code implements on each consumed outcome: a
response status in the retry set, or a thrown error whose message starts
with `HTTP 5` or matches the network-error predicate. -/
def codeRetriable : FetchOutcome → Bool
  | .resp s => decide (s ∈ retryStatuses)
  | .err m => startsWithList m.data "HTTP 5".data || isNetworkError m

/-- One task enqueued into the `TrafficShaper`: the time the worker can
pick it up, the `Math.random()` draw used for its jitter, the running
time of the task body, and its position in the enqueue order. -/
structure ShaperTask where
  taskId : Nat
  arrival : ℚ
  rand : ℚ
  duration : ℚ

/-- One executed task in the shaper's schedule: its identity, the jitter
draw, and its start and completion instants. -/
structure ShaperSlot where
  taskId : Nat
  rand : ℚ
  start : ℚ
  completion : ℚ

/-- `requiredDelay` from `TrafficShaper.processQueue`
(helpers.js/traffic-shaper lines 256-257): `minDelayMs + Math.random() *
jitterMs`. -/
def requiredDelay (minDelayMs jitterMs rand : ℚ) : ℚ :=
  minDelayMs + rand * jitterMs

/-- One iteration of `processQueue`: compute the wait from
`lastRequestTime`, start the task after the wait, and finish after its
duration.  `lastRequestTime` is updated to the completion instant in the
`finally` block. -/
def runShaperTask (minDelayMs jitterMs lastRequestTime now : ℚ)
    (t : ShaperTask) : ShaperSlot :=
  let timeSinceLast := now - lastRequestTime
  let wait := max 0 (requiredDelay minDelayMs jitterMs t.rand - timeSinceLast)
  let start := now + wait
  { taskId := t.taskId
    rand := t.rand
    start := start
    completion := start + t.duration }

/-- The schedule produced by the single `processQueue` worker over a
queue in enqueue order (`enqueue` pushes to the tail, the worker shifts
from the head).  After a task completes, `lastRequestTime` is its
completion instant and the next iteration reads the clock no earlier
than that completion and no earlier than the next task's arrival. -/
def shaperSchedule (minDelayMs jitterMs : ℚ) :
    ℚ → ℚ → List ShaperTask → List ShaperSlot
  | _, _, [] => []
  | lastRequestTime, clock, t :: ts =>
    let slot := runShaperTask minDelayMs jitterMs lastRequestTime
      (max clock t.arrival) t
    slot :: shaperSchedule minDelayMs jitterMs slot.completion slot.completion ts

/-- The `clientMetadata` record of a fingerprint
(src/utils/fingerprint.js lines 92-99). -/
structure ClientMetadata where
  ideType : Nat
  platform : Nat
  pluginType : Nat
  osVersion : String
  arch : String
  sqmId : String
deriving DecidableEq

/-- A synthetic device fingerprint (src/utils/fingerprint.js lines 87-102). -/
structure Fingerprint where
  deviceId : String
  sessionToken : String
  userAgent : String
  apiClient : String
  clientMetadata : ClientMetadata
  quotaUser : String
  createdAt : Int
deriving DecidableEq

/-- `OS_VERSIONS.darwin` from src/utils/fingerprint.js line 14. -/
def OS_VERSIONS_darwin : List String :=
  ["10.15.7", "11.6.8", "12.6.3", "13.5.2", "14.2.1", "14.5"]

/-- `OS_VERSIONS.win32` from src/utils/fingerprint.js line 15. -/
def OS_VERSIONS_win32 : List String :=
  ["10.0.19041", "10.0.19042", "10.0.19043", "10.0.22000", "10.0.22621", "10.0.22631"]

/-- `OS_VERSIONS.linux` from src/utils/fingerprint.js line 16. -/
def OS_VERSIONS_linux : List String :=
  ["5.15.0", "5.19.0", "6.1.0", "6.2.0", "6.5.0", "6.6.0"]

/-- `ARCHITECTURES` from src/utils/fingerprint.js line 19. -/
def ARCHITECTURES : List String := ["x64", "arm64"]

/-- `VSCODE_VERSIONS` from src/utils/fingerprint.js line 22. -/
def VSCODE_VERSIONS : List String := ["1.85.1", "1.86.0", "1.87.2", "1.88.1", "1.89.0"]

/-- `ELECTRON_VERSIONS` from src/utils/fingerprint.js line 23. -/
def ELECTRON_VERSIONS : List String := ["25.9.8", "27.2.3", "28.2.1", "29.3.0"]

/-- `CHROME_VERSIONS` from src/utils/fingerprint.js line 24. -/
def CHROME_VERSIONS : List String :=
  ["114.0.5735.289", "118.0.5993.159", "120.0.6099.291", "122.0.6261.111"]

/-- `SDK_CLIENTS` from src/utils/fingerprint.js lines 26-32. -/
def SDK_CLIENTS : List String :=
  ["google-cloud-sdk vscode_cloudshelleditor/0.1",
   "google-cloud-sdk vscode/1.86.0",
   "google-cloud-sdk vscode/1.87.0",
   "google-cloud-sdk intellij/2024.1",
   "google-cloud-sdk android-studio/2024.1"]

/-- `MAX_FINGERPRINT_HISTORY` from src/utils/fingerprint.js line 37. -/
def MAX_FINGERPRINT_HISTORY : Nat := 5

/-- Modelled from the spec: the numeric `PLATFORM` enum of the missing
`src/constants.js` (values confirmed by `getPlatformEnum` in the helper
variant: 0 unspecified, 1 windows, 2 linux, 3 macos). -/
def PLATFORM_UNSPECIFIED : Nat := 0

/-- Windows value of the platform enum. -/
def PLATFORM_WINDOWS : Nat := 1

/-- Linux value of the platform enum. -/
def PLATFORM_LINUX : Nat := 2

/-- macOS value of the platform enum. -/
def PLATFORM_MACOS : Nat := 3

/-- Modelled from the spec: `IDE_TYPE.ANTIGRAVITY` of the missing
`src/constants.js`; a fixed numeric enum value whose exact number no
claim depends on. -/
def IDE_TYPE_ANTIGRAVITY : Nat := 1

/-- Modelled from the spec: `PLUGIN_TYPE.GEMINI` of the missing
`src/constants.js`; a fixed numeric enum value whose exact number no
claim depends on. -/
def PLUGIN_TYPE_GEMINI : Nat := 1

/-- `randomFrom(arr)` with the `Math.floor(Math.random() * arr.length)`
draw made explicit: the draw is always below the length, encoded
totally by reducing modulo the length. -/
def randomFrom (arr : List String) (pick : Nat) : String :=
  arr.getD (pick % arr.length) ""

/-- The explicit entropy consumed by one `generateFingerprint()` call:
index draws for each `randomFrom`, the crypto randomness, and the clock. -/
structure FingerprintEntropy where
  platformPick : Nat
  archPick : Nat
  osPick : Nat
  vscodePick : Nat
  electronPick : Nat
  chromePick : Nat
  sdkPick : Nat
  deviceIdDraw : String
  sessionTokenDraw : String
  sqmIdDraw : String
  quotaDraw : String
  now : Int

/-- `osVersion.replace(/\./g, '_')` from the darwin user-agent template. -/
def dotsToUnderscores (s : String) : String :=
  String.mk (s.data.map (fun c => if c = '.' then '_' else c))

/-- Shared tail of all three user-agent templates. -/
def userAgentTail (vscodeVersion chromeVersion electronVersion : String) : String :=
  ") AppleWebKit/537.36 (KHTML, like Gecko) Code/" ++ vscodeVersion ++
  " Chrome/" ++ chromeVersion ++ " Electron/" ++ electronVersion ++ " Safari/537.36"

/-- Embeds `generateFingerprint` from src/utils/fingerprint.js lines
62-103, with every random draw taken from the explicit entropy record. -/
def generateFingerprint (e : FingerprintEntropy) : Fingerprint :=
  let platform := randomFrom ["darwin", "win32", "linux"] e.platformPick
  let arch := randomFrom ARCHITECTURES e.archPick
  let osVersion :=
    if platform = "darwin" then randomFrom OS_VERSIONS_darwin e.osPick
    else if platform = "win32" then randomFrom OS_VERSIONS_win32 e.osPick
    else randomFrom OS_VERSIONS_linux e.osPick
  let matchingPlatform :=
    if platform = "darwin" then PLATFORM_MACOS
    else if platform = "win32" then PLATFORM_WINDOWS
    else if platform = "linux" then PLATFORM_LINUX
    else PLATFORM_UNSPECIFIED
  let vscodeVersion := randomFrom VSCODE_VERSIONS e.vscodePick
  let electronVersion := randomFrom ELECTRON_VERSIONS e.electronPick
  let chromeVersion := randomFrom CHROME_VERSIONS e.chromePick
  let userAgent :=
    if platform = "darwin" then
      "Mozilla/5.0 (Macintosh; Intel Mac OS X " ++ dotsToUnderscores osVersion ++
        userAgentTail vscodeVersion chromeVersion electronVersion
    else if platform = "win32" then
      "Mozilla/5.0 (Windows NT " ++ osVersion ++ "; Win64; x64" ++
        userAgentTail vscodeVersion chromeVersion electronVersion
    else
      "Mozilla/5.0 (X11; Linux x86_64" ++
        userAgentTail vscodeVersion chromeVersion electronVersion
  { deviceId := e.deviceIdDraw
    sessionToken := e.sessionTokenDraw
    userAgent := userAgent
    apiClient := randomFrom SDK_CLIENTS e.sdkPick
    clientMetadata :=
      { ideType := IDE_TYPE_ANTIGRAVITY
        platform := matchingPlatform
        pluginType := PLUGIN_TYPE_GEMINI
        osVersion := osVersion
        arch := arch
        sqmId := "\x7b" ++ e.sqmIdDraw ++ "\x7d" }
    quotaUser := "device-" ++ e.quotaDraw
    createdAt := e.now }

/-- Embeds `updateFingerprintVersion` from src/utils/fingerprint.js
lines 131-144: when the user agent still uses the legacy `antigravity/`
format (the truthiness test on `fingerprint.userAgent` is the
non-emptiness test), replace `userAgent` and `clientMetadata` from a
fresh `generateFingerprint()` draw and keep every other field;
otherwise return the input unchanged. -/
def updateFingerprintVersion (e : FingerprintEntropy) (fingerprint : Fingerprint) :
    Fingerprint :=
  if fingerprint.userAgent ≠ "" ∧
      startsWithList fingerprint.userAgent.data "antigravity/".data then
    let newFingerprint := generateFingerprint e
    { fingerprint with
      userAgent := newFingerprint.userAgent
      clientMetadata := newFingerprint.clientMetadata }
  else fingerprint

/-- One simulated IDE interaction event in the telemetry trajectory
payload; `offsetMs` is how far `event_time` is back-dated from now. -/
structure InteractionEvent where
  offsetMs : Int
  interactionType : String
  uiElement : String
deriving DecidableEq

/-- `Math.floor` on a non-negative rational draw, landing in `Nat`. -/
def qFloorNat (q : ℚ) : Nat := (⌊q⌋).toNat

/-- The `SCROLL` / `MOUSE_OVER` choice of the idle branch
(telemetry.js line 221): `Math.random() > 0.6 ? 'SCROLL' : 'MOUSE_OVER'`. -/
def idleInteractionPick (r : ℚ) : String :=
  if r > 3/5 then "SCROLL" else "MOUSE_OVER"

/-- The `WINDOW_FOCUS` / `WINDOW_BLUR` choice (telemetry.js line 230). -/
def focusInteractionPick (r : ℚ) : String :=
  if r > 1/2 then "WINDOW_FOCUS" else "WINDOW_BLUR"

/-- Embeds the interaction-event generation of `sendTelemetry`
(src/modules/telemetry.js lines 196-234).  `draws` is the stream of
`Math.random()` values in order of consumption: draw 0 sizes the event
list, draws `1 + 2i` and `2 + 2i` give the i-th event's back-date offset
and (in the idle branch) its kind, and in the idle branch draws
`1 + 2n` and `2 + 2n` decide the optional focus event and its kind. -/
def generateInteractionEvents (timeSinceActivity : ℚ) (draws : Nat → ℚ) :
    List InteractionEvent :=
  if timeSinceActivity < 15000 then
    let numEvents := qFloorNat (draws 0 * 5) + 3
    (List.range numEvents).map (fun i =>
      { offsetMs := ⌊draws (1 + 2 * i) * 5000⌋
        interactionType := "TYPING"
        uiElement := "EDITOR_PANE" })
  else
    let numEvents := qFloorNat (draws 0 * 3) + 1
    let base := (List.range numEvents).map (fun i =>
      { offsetMs := ⌊draws (1 + 2 * i) * 10000⌋
        interactionType := idleInteractionPick (draws (2 + 2 * i))
        uiElement := "EDITOR_PANE" })
    if draws (1 + 2 * numEvents) > 9/10 then
      base ++ [{ offsetMs := 0
                 interactionType := focusInteractionPick (draws (2 + 2 * numEvents))
                 uiElement := "IDE_WINDOW" }]
    else base

/-- One entry of an account's `fingerprintHistory`; fingerprints are
abstracted to the order in which they were generated. -/
structure PoolHistoryEntry where
  fingerprint : Nat
  reason : String
  timestamp : Int
deriving DecidableEq

/-- Modelled from the spec: the fingerprint state one account holds
inside the account pool (`src/account-manager/index.js` is absent from
the snapshot; contract in spec section 4.1).  `nextFresh` supplies the
next freshly generated fingerprint: every `generateFingerprint()` call
draws fresh randomness, so generated fingerprints are pairwise distinct. -/
structure PoolFingerprintState where
  current : Nat
  history : List PoolHistoryEntry
  nextFresh : Nat
deriving DecidableEq

/-- Modelled from the spec: `regenerate(account)` of the missing account
pool — push the current fingerprint to the history head with reason
`regenerated`, truncate the history to the cap, install a freshly
generated fingerprint as current. -/
def regenerateFingerprint (ts : Int) (st : PoolFingerprintState) :
    PoolFingerprintState :=
  { current := st.nextFresh
    history :=
      (⟨st.current, "regenerated", ts⟩ :: st.history).take MAX_FINGERPRINT_HISTORY
    nextFresh := st.nextFresh + 1 }

/-- Modelled from the spec: `restore(account, historyIndex)` of the
missing account pool — validate the index, push the current fingerprint
to the history head with reason `restored`, remove the entry that was
originally at `historyIndex` (now at `historyIndex + 1`), and install it
as current; an out-of-range index fails with `InvalidArgument`. -/
def restoreFingerprint (ts : Int) (st : PoolFingerprintState)
    (historyIndex : Nat) : Except String (Nat × PoolFingerprintState) :=
  if h : historyIndex < st.history.length then
    let pushed := ⟨st.current, "restored", ts⟩ :: st.history
    let entry := st.history.get ⟨historyIndex, h⟩
    .ok (entry.fingerprint,
      { current := entry.fingerprint
        history := pushed.eraseIdx (historyIndex + 1)
        nextFresh := st.nextFresh })
  else .error "InvalidArgument"

/-- One fingerprint operation applied through the pool. -/
inductive PoolFingerprintOp where
  | regen (ts : Int)
  | restore (ts : Int) (historyIndex : Nat)
deriving DecidableEq

/-- Apply one operation; a failing restore leaves the state unchanged. -/
def applyPoolOp (st : PoolFingerprintState) : PoolFingerprintOp → PoolFingerprintState
  | .regen ts => regenerateFingerprint ts st
  | .restore ts i =>
    match restoreFingerprint ts st i with
    | .ok r => r.2
    | .error _ => st

/-- Run a finite sequence of regenerate/restore operations. -/
def runPoolOps (st : PoolFingerprintState) (ops : List PoolFingerprintOp) :
    PoolFingerprintState :=
  ops.foldl applyPoolOp st

/-- All fingerprints held by the account: the current one and the history. -/
def poolFingerprints (st : PoolFingerprintState) : List Nat :=
  st.current :: st.history.map (fun en => en.fingerprint)

/-- Well-formedness of an account's fingerprint state: the history is
within the cap, no fingerprint is held twice, and every held fingerprint
predates the fresh supply. -/
def GoodPoolState (st : PoolFingerprintState) : Prop :=
  st.history.length ≤ MAX_FINGERPRINT_HISTORY ∧
  (poolFingerprints st).Nodup ∧
  ∀ f ∈ poolFingerprints st, f < st.nextFresh

/-- Modelled from the spec: one cached OAuth token of the missing
account pool, valid while `now < expiresAt − 60s`. -/
structure TokenCacheEntry where
  accessToken : Nat
  expiresAt : Int
deriving DecidableEq

/-- Validity of a token-cache entry at the given instant. -/
def tokenEntryValid (now : Int) : Option TokenCacheEntry → Bool
  | none => false
  | some en => now < en.expiresAt - 60000

/-- Modelled from the spec: the per-account singleflight cell of
`getTokenForAccount` (the account pool implementation is absent from the
snapshot; spec sections 4.4 and 9 prescribe a table of in-flight refresh
promises keyed by account email).  `pending` holds the callers awaiting
the in-flight refresh, `results` what each caller observed, and
`refreshCount` how many OAuth network refreshes were started. -/
structure TokenCell where
  cache : Option TokenCacheEntry
  inflight : Bool
  pending : List Nat
  results : Nat → Option Nat
  refreshCount : Nat

/-- Modelled from the spec: one caller entering `getTokenForAccount`.
A valid cache entry is returned at once; otherwise the caller joins the
in-flight refresh, starting it (one network call) if none is running. -/
def stepTokenCall (now : Int) (cell : TokenCell) (caller : Nat) : TokenCell :=
  if tokenEntryValid now cell.cache then
    { cell with results := fun c =>
        if c = caller then cell.cache.map (fun en => en.accessToken)
        else cell.results c }
  else if cell.inflight then
    { cell with pending := cell.pending ++ [caller] }
  else
    { cell with
      inflight := true
      pending := [caller]
      refreshCount := cell.refreshCount + 1 }

/-- Modelled from the spec: the in-flight OAuth refresh resolving with a
fresh token — the result is cached and fanned out to every pending caller. -/
def stepTokenRefreshDone (cell : TokenCell) (token : Nat) (expiresAt : Int) :
    TokenCell :=
  if cell.inflight then
    { cache := some ⟨token, expiresAt⟩
      inflight := false
      pending := []
      results := fun c => if c ∈ cell.pending then some token else cell.results c
      refreshCount := cell.refreshCount }
  else cell

/-- A token cell with no cached entry, no in-flight refresh, and no
recorded network refreshes. -/
def initTokenCell (cache : Option TokenCacheEntry) : TokenCell :=
  { cache := cache
    inflight := false
    pending := []
    results := fun _ => none
    refreshCount := 0 }

/-- Modelled from the spec: one part of a Google candidate's content
(the response converter `src/format/response-converter.js` is absent
from the snapshot; contract in spec section 4.6). -/
inductive GooglePart where
  | thoughtPart (text : String) (thoughtSignature : Option String)
  | textPart (text : String)
  | functionCallPart (name : String) (id : Option String) (args : Option String)
      (thoughtSignature : Option String)
  | inlineDataPart (mimeType : String) (data : String)
  | otherPart
deriving DecidableEq

/-- A Google response candidate. -/
structure GoogleCandidate where
  parts : List GooglePart
  finishReason : Option String
deriving DecidableEq

/-- The `usageMetadata` of a Google response; absent counts default to 0. -/
structure GoogleUsageMetadata where
  promptTokenCount : Nat
  cachedContentTokenCount : Nat
  candidatesTokenCount : Nat
deriving DecidableEq

/-- A Google response: the `candidates` array may be absent entirely. -/
structure GoogleResponse where
  candidates : Option (List GoogleCandidate)
  usageMetadata : Option GoogleUsageMetadata
deriving DecidableEq

/-- One Anthropic-style content block. -/
inductive AnthropicBlock where
  | thinkingBlock (thinking : String) (signature : Option String)
  | textBlock (text : String)
  | toolUseBlock (id : String) (name : String) (input : Option String)
      (thoughtSignature : Option String)
  | imageBlock (mediaType : String) (data : String)
deriving DecidableEq

/-- The `usage` part of the Anthropic-style envelope. -/
structure AnthropicUsage where
  input_tokens : Nat
  cache_read_input_tokens : Nat
  output_tokens : Nat
deriving DecidableEq

/-- The Anthropic-style response envelope. -/
structure AnthropicResponse where
  type : String
  role : String
  model : String
  content : List AnthropicBlock
  stop_reason : String
  usage : AnthropicUsage
deriving DecidableEq

/-- Modelled from the spec: map one part to at most one content block;
a tool call without an id receives `toolu_` plus 24 random hex digits,
drawn here from the explicit supply `genId` at the part's index. -/
def partToBlock (genId : Nat → String) (idx : Nat) :
    GooglePart → Option AnthropicBlock
  | .thoughtPart text sig => some (.thinkingBlock text sig)
  | .textPart text => some (.textBlock text)
  | .functionCallPart name id args sig =>
      some (.toolUseBlock
        (match id with | some i => i | none => "toolu_" ++ genId idx)
        name args sig)
  | .inlineDataPart mime data => some (.imageBlock mime data)
  | .otherPart => none

/-- Modelled from the spec: the blocks obtained by walking
`candidates[0].content.parts` in order. -/
def googleContentBlocks (genId : Nat → String) :
    Option (List GoogleCandidate) → List AnthropicBlock
  | none => []
  | some [] => []
  | some (c :: _) => c.parts.enum.filterMap (fun p => partToBlock genId p.1 p.2)

/-- Is the block a tool-use block? -/
def isToolUseBlock : AnthropicBlock → Bool
  | .toolUseBlock _ _ _ _ => true
  | _ => false

/-- Modelled from the spec: the `finishReason` to `stop_reason` mapping. -/
def mapFinishReason : Option String → String
  | some "STOP" => "end_turn"
  | some "MAX_TOKENS" => "max_tokens"
  | some "TOOL_USE" => "tool_use"
  | _ => "end_turn"

/-- Modelled from the spec: `convertGoogleToAnthropic(googleResp,
modelName)` — fixed envelope, blocks from the first candidate's parts, a
single empty text block when no block was produced, tool-use overriding
the stop reason, and usage counts with saturating subtraction of the
cached tokens. -/
def convertGoogleToAnthropic (genId : Nat → String) (googleResp : GoogleResponse)
    (modelName : String) : AnthropicResponse :=
  let blocks := googleContentBlocks genId googleResp.candidates
  let content := if blocks.isEmpty then [AnthropicBlock.textBlock ""] else blocks
  let finishReason :=
    match googleResp.candidates with
    | some (c :: _) => c.finishReason
    | _ => none
  let usage : AnthropicUsage :=
    match googleResp.usageMetadata with
    | some u =>
      { input_tokens := u.promptTokenCount - u.cachedContentTokenCount
        cache_read_input_tokens := u.cachedContentTokenCount
        output_tokens := u.candidatesTokenCount }
    | none =>
      { input_tokens := 0, cache_read_input_tokens := 0, output_tokens := 0 }
  { type := "message"
    role := "assistant"
    model := modelName
    content := content
    stop_reason :=
      if content.any isToolUseBlock then "tool_use" else mapFinishReason finishReason
    usage := usage }

/-- A fixed entropy record used to instantiate the fingerprint engine
on concrete inputs. -/
def sampleEntropy : FingerprintEntropy :=
  { platformPick := 0, archPick := 0, osPick := 0, vscodePick := 0
    electronPick := 0, chromePick := 0, sdkPick := 0
    deviceIdDraw := "device-id-1", sessionTokenDraw := "session-token-1"
    sqmIdDraw := "SQM-1", quotaDraw := "quota-1", now := 0 }

/-- A concrete fingerprint still carrying the legacy user agent. -/
def legacyFingerprint : Fingerprint :=
  { deviceId := "d0", sessionToken := "s0"
    userAgent := "antigravity/0.0.1 darwin/x64"
    apiClient := "google-cloud-sdk vscode/1.86.0"
    clientMetadata :=
      { ideType := 1, platform := 3, pluginType := 1
        osVersion := "14.5", arch := "x64", sqmId := "S" }
    quotaUser := "device-q0", createdAt := 100 }

/-- A concrete fingerprint already carrying a modern user agent. -/
def modernFingerprint : Fingerprint :=
  { legacyFingerprint with
    userAgent := "Mozilla/5.0 (X11; Linux x86_64) AppleWebKit/537.36" }

/-- A concrete pool fingerprint state: initial fingerprint 0 regenerated
twice, so fingerprint 2 is current and the history holds 1 then 0. -/
def poolStateExample : PoolFingerprintState :=
  { current := 2
    history := [{ fingerprint := 1, reason := "regenerated", timestamp := 1 },
                { fingerprint := 0, reason := "regenerated", timestamp := 0 }]
    nextFresh := 3 }

/-- The combined ordering relation between two consecutive slots of a
shaper schedule: the later one starts only after the earlier one's
completion plus its own required delay, never overlaps it, and starts at
least `minDelayMs` after it. -/
def shaperRel (minDelayMs jitterMs : ℚ) (a b : ShaperSlot) : Prop :=
  a.completion + requiredDelay minDelayMs jitterMs b.rand ≤ b.start ∧
  a.completion ≤ b.start ∧ a.completion ≤ b.completion ∧
  a.start + minDelayMs ≤ b.start

/-- The value `throttledFetch` produces from the outcome of a final,
non-retried attempt: a response is returned, a thrown error propagates. -/
def finalResult : FetchOutcome → Except String Nat
  | .resp s => .ok s
  | .err m => .error m

/-- The six substrings tested by the network-error predicate. -/
def networkNeedles : List String :=
  ["fetch failed", "network error", "econnreset", "etimedout",
   "socket hang up", "timeout"]

theorem charToNat_ofNat {n : Nat} (h : n.isValidChar) :
    (Char.ofNat n).toNat = n := by
  unfold Char.ofNat
  rw [dif_pos h]
  unfold Char.ofNatAux Char.toNat
  simp [UInt32.toNat, BitVec.toNat_ofNatLt]

theorem charOfNat_toNat (c : Char) : Char.ofNat c.toNat = c := by
  have hv : c.toNat.isValidChar := c.valid
  unfold Char.ofNat
  rw [dif_pos hv]
  unfold Char.ofNatAux
  apply Char.ext
  apply UInt32.ext
  simp [Char.toNat, UInt32.toNat, BitVec.toNat_ofNatLt]

theorem lowerChar_upperChar (c : Char) : lowerChar (upperChar c) = lowerChar c := by
  unfold lowerChar upperChar
  by_cases h : 97 ≤ c.toNat ∧ c.toNat ≤ 122
  · rw [if_pos h]
    have hv : (c.toNat - 32).isValidChar := Or.inl (by omega)
    have ht : (Char.ofNat (c.toNat - 32)).toNat = c.toNat - 32 := charToNat_ofNat hv
    rw [if_pos (by omega), if_neg (by omega), ht]
    have : c.toNat - 32 + 32 = c.toNat := by omega
    rw [this, charOfNat_toNat]
  · rw [if_neg h]

theorem startsWithList_iff (l p : List Char) :
    startsWithList l p = true ↔ ∃ t, l = p ++ t := by
  induction p generalizing l with
  | nil =>
    simp only [startsWithList, List.nil_append, true_iff]
    exact ⟨l, rfl⟩
  | cons d ds ih =>
    cases l with
    | nil =>
      simp [startsWithList]
    | cons c cs =>
      simp only [startsWithList, Bool.and_eq_true, beq_iff_eq, ih, List.cons_append,
        List.cons.injEq]
      constructor
      · rintro ⟨rfl, t, rfl⟩
        exact ⟨t, rfl, rfl⟩
      · rintro ⟨t, h1, rfl⟩
        exact ⟨h1, t, rfl⟩

theorem hasSub_iff (needle hay : List Char) :
    hasSub needle hay = true ↔ ∃ p q, hay = p ++ needle ++ q := by
  induction hay with
  | nil =>
    simp only [hasSub, List.isEmpty_iff]
    constructor
    · rintro rfl
      exact ⟨[], [], rfl⟩
    · rintro ⟨p, q, h⟩
      rcases List.append_eq_nil.1 h.symm with ⟨h1, h2⟩
      exact (List.append_eq_nil.1 h1).2
  | cons c t ih =>
    simp only [hasSub, Bool.or_eq_true, startsWithList_iff, ih]
    constructor
    · rintro (⟨q, hq⟩ | ⟨p, q, h⟩)
      · exact ⟨[], q, by simpa using hq⟩
      · exact ⟨c :: p, q, by simp [h]⟩
    · rintro ⟨p, q, h⟩
      cases p with
      | nil =>
        left
        exact ⟨q, by simpa using h⟩
      | cons a p' =>
        right
        simp only [List.cons_append, List.cons.injEq] at h
        exact ⟨p', q, h.2⟩

/-- C5: `isNetworkError` returns true exactly when the lower-cased
message contains one of the six needles; the match is case-insensitive
(upper-casing the message does not change the verdict), and the function
is false on the empty message, `Internal Server Error`, `404 Not Found`
and `JSON Parse Error` while accepting mixed-case variants of each
needle. -/
theorem isNetworkError_substring_spec :
    (∀ message : String,
      isNetworkError message = true ↔
        ∃ needle ∈ networkNeedles,
          ∃ p q, lowerStr message = p ++ needle.data ++ q) ∧
    (∀ message : String,
      isNetworkError (String.mk (message.data.map upperChar)) =
        isNetworkError message) ∧
    isNetworkError "" = false ∧
    isNetworkError "Internal Server Error" = false ∧
    isNetworkError "404 Not Found" = false ∧
    isNetworkError "JSON Parse Error" = false ∧
    isNetworkError "FETCH FAILED" = true ∧
    isNetworkError "Network Error" = true ∧
    isNetworkError "ECONNRESET" = true ∧
    isNetworkError "EtImEdOuT" = true ∧
    isNetworkError "Socket Hang Up" = true ∧
    isNetworkError "request Timeout" = true := by
  refine ⟨?_, ?_, by decide, by decide, by decide, by decide, by decide,
    by decide, by decide, by decide, by decide, by decide⟩
  · intro message
    simp only [isNetworkError, Bool.or_eq_true, hasSub_iff, networkNeedles,
      List.exists_mem_cons_iff, List.not_mem_nil, false_and, exists_false,
      or_false, or_assoc]
  · intro message
    have h : lowerStr (String.mk (message.data.map upperChar)) =
        lowerStr message := by
      simp [lowerStr, List.map_map, Function.comp_def, lowerChar_upperChar]
    simp only [isNetworkError, h]

/-- C10: `isNetworkError` yields a boolean only when the `message`
property is a string (the empty string included); an absent, `null` or
`undefined` message makes the unguarded `error.message.toLowerCase()`
call throw a TypeError instead of returning false. -/
theorem isNetworkErrorJs_requires_string_message :
    isNetworkErrorJs JsStringValue.undefinedV = Except.error "TypeError" ∧
    isNetworkErrorJs JsStringValue.nullV = Except.error "TypeError" ∧
    (∀ s : String,
      isNetworkErrorJs (JsStringValue.strV s) = Except.ok (isNetworkError s)) ∧
    isNetworkErrorJs (JsStringValue.strV "") = Except.ok false :=
  ⟨rfl, rfl, fun _ => rfl, rfl⟩

theorem fetchLoop_stop (script : Nat → FetchOutcome) (fuel attempt : Nat)
    (h : codeRetriable (script attempt) = false) :
    fetchLoop script (fuel + 1) attempt = (finalResult (script attempt), attempt + 1) := by
  cases ho : script attempt with
  | resp s =>
    have hc : ¬ s ∈ retryStatuses := by
      have h2 := h
      rw [ho] at h2
      simpa [codeRetriable] using h2
    simp [fetchLoop, tryAttempt, ho, hc, finalResult]
  | err m =>
    have hc : retryOnError m = false := by
      have h2 := h
      rw [ho] at h2
      simpa [codeRetriable, retryOnError] using h2
    simp [fetchLoop, tryAttempt, ho, hc, finalResult]

theorem fetchLoop_retry (script : Nat → FetchOutcome) (fuel attempt : Nat)
    (ha : attempt < MAX_RETRIES) (h : codeRetriable (script attempt) = true) :
    fetchLoop script (fuel + 1) attempt = fetchLoop script fuel (attempt + 1) := by
  cases ho : script attempt with
  | resp s =>
    have hc : s ∈ retryStatuses := by
      have h2 := h
      rw [ho] at h2
      simpa [codeRetriable] using h2
    have hs : s = 500 ∨ s = 502 ∨ s = 503 ∨ s = 504 := by
      simpa [retryStatuses] using hc
    have hr : retryOnError (httpStatusMessage s) = true := by
      rcases hs with rfl | rfl | rfl | rfl <;> decide
    simp [fetchLoop, tryAttempt, ho, ha, hc, hr]
  | err m =>
    have hc : retryOnError m = true := by
      have h2 := h
      rw [ho] at h2
      simpa [codeRetriable, retryOnError] using h2
    simp [fetchLoop, tryAttempt, ho, ha, hc]

theorem fetchLoop_last (script : Nat → FetchOutcome) (fuel : Nat) :
    fetchLoop script (fuel + 1) 2 = (finalResult (script 2), 3) := by
  cases ho : script 2 with
  | resp s => simp [fetchLoop, tryAttempt, ho, finalResult, MAX_RETRIES]
  | err m => simp [fetchLoop, tryAttempt, ho, finalResult, MAX_RETRIES]

theorem throttledFetchModel_eq (script : Nat → FetchOutcome) :
    throttledFetchModel script =
      if codeRetriable (script 0) = true then
        if codeRetriable (script 1) = true then
          (finalResult (script 2), 3)
        else (finalResult (script 1), 2)
      else (finalResult (script 0), 1) := by
  unfold throttledFetchModel MAX_RETRIES
  cases h0 : codeRetriable (script 0) with
  | false =>
    rw [fetchLoop_stop script 2 0 h0]
    simp [h0]
  | true =>
    rw [fetchLoop_retry script 2 0 (by decide) h0]
    conv_lhs => rw [(rfl : (2 : Nat) = 1 + 1)]
    cases h1 : codeRetriable (script 1) with
    | false =>
      rw [fetchLoop_stop script 1 1 h1]
      simp [h0, h1]
    | true =>
      rw [fetchLoop_retry script 1 1 (by decide) h1]
      conv_lhs => rw [(rfl : (1 : Nat) = 0 + 1)]
      rw [fetchLoop_last script 0]
      simp [h0, h1]

/-- C2 (amended): `throttledFetch` makes at most 3 attempts; it retries
exactly when the consumed outcome is a response with status in
{500, 502, 503, 504} or a thrown error whose message is a network error
or starts with `HTTP 5`; a 429 response ends the loop at once and is
returned to the caller; and whenever the call fails, the error is the
one thrown by the last attempt performed. -/
theorem throttledFetch_retry_policy (script : Nat → FetchOutcome) :
    (throttledFetchModel script).2 ≤ 3 ∧
    (throttledFetchModel script).2 =
      (if codeRetriable (script 0) = true then
        (if codeRetriable (script 1) = true then 3 else 2)
      else 1) ∧
    (script 0 = FetchOutcome.resp 429 →
      throttledFetchModel script = (Except.ok 429, 1)) ∧
    (∀ m, (throttledFetchModel script).1 = Except.error m →
      script ((throttledFetchModel script).2 - 1) = FetchOutcome.err m) := by
  have key := throttledFetchModel_eq script
  cases h0 : codeRetriable (script 0) with
  | false =>
    rw [h0] at key
    simp only [Bool.false_eq_true, if_false] at key
    refine ⟨by rw [key]; norm_num, by rw [key]; simp [h0], ?_, ?_⟩
    · intro h429
      rw [key, h429]
      rfl
    · intro m hm
      rw [key] at hm ⊢
      cases ho : script 0 with
      | resp s => rw [ho] at hm; simp [finalResult] at hm
      | err m0 =>
        rw [ho] at hm
        simp only [finalResult, Except.error.injEq] at hm
        simp [ho, hm]
  | true =>
    cases h1 : codeRetriable (script 1) with
    | false =>
      rw [h0, h1] at key
      simp only [if_true, Bool.false_eq_true, if_false] at key
      refine ⟨by rw [key]; norm_num, by rw [key]; simp [h0, h1], ?_, ?_⟩
      · intro h429
        rw [h429] at h0
        exact absurd h0 (by decide)
      · intro m hm
        rw [key] at hm ⊢
        cases ho : script 1 with
        | resp s => rw [ho] at hm; simp [finalResult] at hm
        | err m0 =>
          rw [ho] at hm
          simp only [finalResult, Except.error.injEq] at hm
          simp [ho, hm]
    | true =>
      rw [h0, h1] at key
      simp only [if_true] at key
      refine ⟨by rw [key], by rw [key]; simp [h0, h1], ?_, ?_⟩
      · intro h429
        rw [h429] at h0
        exact absurd h0 (by decide)
      · intro m hm
        rw [key] at hm ⊢
        cases ho : script 2 with
        | resp s => rw [ho] at hm; simp [finalResult] at hm
        | err m0 =>
          rw [ho] at hm
          simp only [finalResult, Except.error.injEq] at hm
          simp [ho, hm]

/-- A 429 response on the first attempt of `throttledFetch` is returned
to the caller after exactly one attempt. -/
theorem throttledFetch_retry_policy_witness :
    throttledFetchModel (fun _ => FetchOutcome.resp 429) = (Except.ok 429, 1) :=
  (throttledFetch_retry_policy (fun _ => FetchOutcome.resp 429)).2.2.1 rfl

/-- C2 counterexample: a stream error whose message is `HTTP 500` is
retried through all three attempts, although it is neither a retryable
response status nor a network error — the claim's "retries exactly when"
is false at this input. -/
theorem throttledFetch_claim_counterexample :
    specRetriable (FetchOutcome.err "HTTP 500") = false ∧
    (throttledFetchModel (fun _ => FetchOutcome.err "HTTP 500")).2 = 3 ∧
    ¬ (1 < (throttledFetchModel (fun _ => FetchOutcome.err "HTTP 500")).2 →
        specRetriable ((fun _ => FetchOutcome.err "HTTP 500") 0) = true) := by
  refine ⟨by decide, ?_, ?_⟩
  · decide
  · intro h
    have h2 : (throttledFetchModel (fun _ => FetchOutcome.err "HTTP 500")).2 = 3 := by decide
    have h3 := h (by rw [h2]; norm_num)
    exact absurd h3 (by decide)

theorem runShaperTask_start_ge (minD jitD last now : ℚ) (t : ShaperTask) :
    last + requiredDelay minD jitD t.rand ≤ (runShaperTask minD jitD last now t).start := by
  simp only [runShaperTask]
  have h := le_max_right (0 : ℚ) (requiredDelay minD jitD t.rand - (now - last))
  linarith

theorem shaperSchedule_good (minD jitD : ℚ) (hm : 0 ≤ minD) (hj : 0 ≤ jitD) :
    ∀ (ts : List ShaperTask) (last clock : ℚ),
      (∀ t ∈ ts, 0 ≤ t.rand ∧ 0 ≤ t.duration) →
      (∀ y ∈ (shaperSchedule minD jitD last clock ts).head?,
          last + requiredDelay minD jitD y.rand ≤ y.start) ∧
      (∀ s ∈ shaperSchedule minD jitD last clock ts,
          s.start ≤ s.completion ∧ 0 ≤ s.rand) ∧
      List.Chain' (shaperRel minD jitD) (shaperSchedule minD jitD last clock ts) ∧
      (shaperSchedule minD jitD last clock ts).map (fun s => s.taskId) =
        ts.map (fun t => t.taskId) := by
  intro ts
  induction ts with
  | nil =>
    intro last clock _
    refine ⟨?_, ?_, ?_, ?_⟩ <;> simp [shaperSchedule]
  | cons t ts ih =>
    intro last clock h
    have ht := h t (List.mem_cons_self t ts)
    have hts : ∀ x ∈ ts, 0 ≤ x.rand ∧ 0 ≤ x.duration :=
      fun x hx => h x (List.mem_cons_of_mem t hx)
    have hsched : shaperSchedule minD jitD last clock (t :: ts) =
        runShaperTask minD jitD last (max clock t.arrival) t ::
          shaperSchedule minD jitD
            (runShaperTask minD jitD last (max clock t.arrival) t).completion
            (runShaperTask minD jitD last (max clock t.arrival) t).completion ts := rfl
    obtain ⟨rhead, relem, rchain, rids⟩ :=
      ih (runShaperTask minD jitD last (max clock t.arrival) t).completion
        (runShaperTask minD jitD last (max clock t.arrival) t).completion hts
    set slot := runShaperTask minD jitD last (max clock t.arrival) t with hslotdef
    have hrand : slot.rand = t.rand := rfl
    have hid : slot.taskId = t.taskId := rfl
    have hcomp : slot.completion = slot.start + t.duration := rfl
    have hstart : last + requiredDelay minD jitD t.rand ≤ slot.start :=
      runShaperTask_start_ge minD jitD last (max clock t.arrival) t
    rw [hsched]
    refine ⟨?_, ?_, ?_, ?_⟩
    · intro y hy
      simp only [List.head?_cons, Option.mem_def, Option.some.injEq] at hy
      subst hy
      rw [hrand]
      exact hstart
    · intro s hs
      rcases List.mem_cons.1 hs with rfl | hs
      · exact ⟨by rw [hcomp]; linarith [ht.2], by rw [hrand]; exact ht.1⟩
      · exact relem s hs
    · rw [List.chain'_cons']
      refine ⟨?_, rchain⟩
      intro y hy
      have h1 := rhead y hy
      have h2 := relem y (List.mem_of_mem_head? hy)
      have hD : 0 ≤ requiredDelay minD jitD y.rand := by
        unfold requiredDelay
        have := mul_nonneg h2.2 hj
        linarith
      have hDm : minD ≤ requiredDelay minD jitD y.rand := by
        unfold requiredDelay
        have := mul_nonneg h2.2 hj
        linarith
      have hsc : slot.start ≤ slot.completion := by
        rw [hcomp]; linarith [ht.2]
      exact ⟨h1, by linarith, by linarith [h2.1], by linarith⟩
    · simp only [List.map_cons, rids, hid]

/-- C1: within one `TrafficShaper`, the worker executes the queue in
enqueue order; with non-negative `minDelayMs`, `jitterMs`, jitter draws
and task durations, every task k+1 starts no earlier than the completion
of task k plus its own `requiredDelay` (which is at least `minDelayMs`),
no two tasks overlap (every earlier task completes before any later task
starts), and consecutive start times differ by at least `minDelayMs`. -/
theorem trafficShaper_fifo_and_spacing
    (minDelayMs jitterMs last clock : ℚ) (tasks : List ShaperTask)
    (hmin : 0 ≤ minDelayMs) (hjit : 0 ≤ jitterMs)
    (htasks : ∀ t ∈ tasks, 0 ≤ t.rand ∧ 0 ≤ t.duration) :
    ((shaperSchedule minDelayMs jitterMs last clock tasks).map (fun s => s.taskId) =
      tasks.map (fun t => t.taskId)) ∧
    List.Chain'
      (fun a b => a.completion + requiredDelay minDelayMs jitterMs b.rand ≤ b.start)
      (shaperSchedule minDelayMs jitterMs last clock tasks) ∧
    List.Pairwise (fun a b => a.completion ≤ b.start)
      (shaperSchedule minDelayMs jitterMs last clock tasks) ∧
    List.Chain' (fun a b => a.start + minDelayMs ≤ b.start)
      (shaperSchedule minDelayMs jitterMs last clock tasks) := by
  obtain ⟨hhead, helem, hchain, hids⟩ :=
    shaperSchedule_good minDelayMs jitterMs hmin hjit tasks last clock htasks
  haveI : IsTrans ShaperSlot
      (fun a b => a.completion ≤ b.start ∧ a.completion ≤ b.completion) :=
    ⟨fun _ _ _ hab hbc => ⟨le_trans hab.2 hbc.1, le_trans hab.2 hbc.2⟩⟩
  have hp : List.Pairwise
      (fun a b => a.completion ≤ b.start ∧ a.completion ≤ b.completion)
      (shaperSchedule minDelayMs jitterMs last clock tasks) :=
    List.chain'_iff_pairwise.mp (hchain.imp (fun _ _ h => ⟨h.2.1, h.2.2.1⟩))
  exact ⟨hids, hchain.imp (fun _ _ h => h.1), hp.imp (fun h => h.1),
    hchain.imp (fun _ _ h => h.2.2.2)⟩

/-- The shaper guarantees instantiated with the default configuration
and three concrete tasks enqueued together. -/
theorem trafficShaper_fifo_and_spacing_witness :
    ((shaperSchedule 3000 2000 0 0
        [⟨1, 0, 1/2, 10⟩, ⟨2, 0, 1/4, 5⟩, ⟨3, 0, 0, 0⟩]).map (fun s => s.taskId) =
      ([⟨1, 0, 1/2, 10⟩, ⟨2, 0, 1/4, 5⟩, ⟨3, 0, 0, 0⟩] :
          List ShaperTask).map (fun t => t.taskId)) ∧
    List.Chain'
      (fun a b => a.completion + requiredDelay 3000 2000 b.rand ≤ b.start)
      (shaperSchedule 3000 2000 0 0
        [⟨1, 0, 1/2, 10⟩, ⟨2, 0, 1/4, 5⟩, ⟨3, 0, 0, 0⟩]) ∧
    List.Pairwise (fun a b => a.completion ≤ b.start)
      (shaperSchedule 3000 2000 0 0
        [⟨1, 0, 1/2, 10⟩, ⟨2, 0, 1/4, 5⟩, ⟨3, 0, 0, 0⟩]) ∧
    List.Chain' (fun a b => a.start + 3000 ≤ b.start)
      (shaperSchedule 3000 2000 0 0
        [⟨1, 0, 1/2, 10⟩, ⟨2, 0, 1/4, 5⟩, ⟨3, 0, 0, 0⟩]) :=
  trafficShaper_fifo_and_spacing 3000 2000 0 0
    [⟨1, 0, 1/2, 10⟩, ⟨2, 0, 1/4, 5⟩, ⟨3, 0, 0, 0⟩]
    (by norm_num) (by norm_num)
    (by intro t ht; fin_cases ht <;> norm_num)

theorem startsWithList_head {l p : List Char} {c : Char}
    (h : startsWithList l (c :: p) = true) : l.head? = some c := by
  cases l with
  | nil => simp [startsWithList] at h
  | cons a t =>
    simp only [startsWithList, Bool.and_eq_true, beq_iff_eq] at h
    simp [h.1]

/-- C7: when the user agent still has the legacy `antigravity/` prefix,
`updateFingerprintVersion` replaces exactly `userAgent` and
`clientMetadata` with the freshly generated ones and preserves
`deviceId`, `sessionToken`, `quotaUser`, `createdAt` and `apiClient`;
a fingerprint whose user agent starts with `Mozilla/` — and more
generally any fingerprint without the legacy prefix — is returned
unchanged. -/
theorem updateFingerprintVersion_spec (e : FingerprintEntropy) (fingerprint : Fingerprint) :
    (startsWithList fingerprint.userAgent.data "antigravity/".data = true →
      updateFingerprintVersion e fingerprint =
        { fingerprint with
          userAgent := (generateFingerprint e).userAgent
          clientMetadata := (generateFingerprint e).clientMetadata } ∧
      (updateFingerprintVersion e fingerprint).deviceId = fingerprint.deviceId ∧
      (updateFingerprintVersion e fingerprint).sessionToken = fingerprint.sessionToken ∧
      (updateFingerprintVersion e fingerprint).quotaUser = fingerprint.quotaUser ∧
      (updateFingerprintVersion e fingerprint).createdAt = fingerprint.createdAt ∧
      (updateFingerprintVersion e fingerprint).apiClient = fingerprint.apiClient) ∧
    (startsWithList fingerprint.userAgent.data "Mozilla/".data = true →
      updateFingerprintVersion e fingerprint = fingerprint) ∧
    (startsWithList fingerprint.userAgent.data "antigravity/".data = false →
      updateFingerprintVersion e fingerprint = fingerprint) := by
  have hno : startsWithList fingerprint.userAgent.data "antigravity/".data = false →
      updateFingerprintVersion e fingerprint = fingerprint := by
    intro hfalse
    unfold updateFingerprintVersion
    rw [if_neg]
    intro hc
    rw [hfalse] at hc
    exact Bool.false_ne_true hc.2
  refine ⟨?_, ?_, hno⟩
  · intro h
    obtain ⟨t, hdata⟩ := (startsWithList_iff _ _).1 h
    have hne : fingerprint.userAgent ≠ "" := by
      intro h0
      rw [h0] at hdata
      simp at hdata
    have he : updateFingerprintVersion e fingerprint =
        { fingerprint with
          userAgent := (generateFingerprint e).userAgent
          clientMetadata := (generateFingerprint e).clientMetadata } := by
      unfold updateFingerprintVersion
      rw [if_pos ⟨hne, h⟩]
    exact ⟨he, by rw [he], by rw [he], by rw [he], by rw [he], by rw [he]⟩
  · intro hM
    apply hno
    cases ha : startsWithList fingerprint.userAgent.data "antigravity/".data with
    | false => rfl
    | true =>
      have h1 : fingerprint.userAgent.data.head? = some 'M' :=
        startsWithList_head (p := "ozilla/".data) hM
      have h2 : fingerprint.userAgent.data.head? = some 'a' :=
        startsWithList_head (p := "ntigravity/".data) ha
      rw [h1] at h2
      exact absurd (Option.some.inj h2) (by decide)

/-- The version update applied to a concrete legacy fingerprint replaces
its user agent and metadata, keeps its identity fields, and leaves a
concrete modern fingerprint untouched. -/
theorem updateFingerprintVersion_spec_witness :
    updateFingerprintVersion sampleEntropy legacyFingerprint =
      { legacyFingerprint with
        userAgent := (generateFingerprint sampleEntropy).userAgent
        clientMetadata := (generateFingerprint sampleEntropy).clientMetadata } ∧
    (updateFingerprintVersion sampleEntropy legacyFingerprint).deviceId =
      legacyFingerprint.deviceId ∧
    updateFingerprintVersion sampleEntropy modernFingerprint = modernFingerprint :=
  ⟨((updateFingerprintVersion_spec sampleEntropy legacyFingerprint).1 (by decide)).1,
   ((updateFingerprintVersion_spec sampleEntropy legacyFingerprint).1 (by decide)).2.1,
   (updateFingerprintVersion_spec sampleEntropy modernFingerprint).2.1 (by decide)⟩

theorem qFloorNat_lt {q : ℚ} {n : Nat} (hn : 0 < n) (h : q < n) : qFloorNat q < n := by
  have hf : ⌊q⌋ < (n : ℤ) := by
    rw [Int.floor_lt]
    exact_mod_cast h
  unfold qFloorNat
  omega

theorem floor_mul_nonneg {d c : ℚ} (h0 : 0 ≤ d) (hc : 0 ≤ c) : 0 ≤ ⌊d * c⌋ :=
  Int.floor_nonneg.mpr (mul_nonneg h0 hc)

theorem floor_mul_le {d c : ℚ} {b : ℤ} (_h0 : 0 ≤ d) (h1 : d < 1) (hc : 0 ≤ c)
    (hb : c ≤ (b : ℚ)) : ⌊d * c⌋ ≤ b := by
  have hq : d * c ≤ (b : ℚ) := by nlinarith
  calc ⌊d * c⌋ ≤ ⌊(b : ℚ)⌋ := Int.floor_le_floor hq
  _ = b := Int.floor_intCast b

/-- C8 (amended): in the recent-activity branch the trajectory payload
holds 3 to 7 `TYPING` events on `EDITOR_PANE` back-dated at most 5 s
(the draw `Math.floor(5·U) + 3` never reaches 8); in the idle branch it
holds 1 to 3 events on `EDITOR_PANE` back-dated at most 10 s, each being
`SCROLL` exactly when its uniform draw exceeds 0.6 — `SCROLL` with
probability 40% and `MOUSE_OVER` with probability 60% — plus, exactly
when a further draw exceeds 0.9 (probability 10%), one appended
`WINDOW_FOCUS` or `WINDOW_BLUR` event on `IDE_WINDOW`. -/
theorem telemetry_interaction_events_spec (timeSinceActivity : ℚ) (draws : Nat → ℚ)
    (hd : ∀ i, 0 ≤ draws i ∧ draws i < 1) :
    (timeSinceActivity < 15000 →
      3 ≤ (generateInteractionEvents timeSinceActivity draws).length ∧
      (generateInteractionEvents timeSinceActivity draws).length ≤ 7 ∧
      ∀ ev ∈ generateInteractionEvents timeSinceActivity draws,
        ev.interactionType = "TYPING" ∧ ev.uiElement = "EDITOR_PANE" ∧
        0 ≤ ev.offsetMs ∧ ev.offsetMs ≤ 5000) ∧
    (¬ timeSinceActivity < 15000 →
      ∃ base extra,
        generateInteractionEvents timeSinceActivity draws = base ++ extra ∧
        1 ≤ base.length ∧ base.length ≤ 3 ∧
        (∀ ev ∈ base,
          ev.uiElement = "EDITOR_PANE" ∧
          (ev.interactionType = "SCROLL" ∨ ev.interactionType = "MOUSE_OVER") ∧
          0 ≤ ev.offsetMs ∧ ev.offsetMs ≤ 10000) ∧
        ((extra = [] ∧ ¬ draws (1 + 2 * base.length) > 9/10) ∨
         (∃ ev, extra = [ev] ∧ draws (1 + 2 * base.length) > 9/10 ∧
            ev.uiElement = "IDE_WINDOW" ∧ ev.offsetMs = 0 ∧
            (ev.interactionType = "WINDOW_FOCUS" ∨
             ev.interactionType = "WINDOW_BLUR")))) ∧
    (∀ r : ℚ, idleInteractionPick r = "SCROLL" ↔ 3/5 < r) := by
  refine ⟨?_, ?_, ?_⟩
  · intro hlt
    unfold generateInteractionEvents
    rw [if_pos hlt]
    have hcount : qFloorNat (draws 0 * 5) < 5 := by
      refine qFloorNat_lt (by norm_num) ?_
      have h1 := (hd 0).1
      have h2 := (hd 0).2
      push_cast
      nlinarith
    refine ⟨by simp, by simp; omega, ?_⟩
    intro ev hev
    obtain ⟨i, _, rfl⟩ := List.mem_map.1 hev
    refine ⟨rfl, rfl, ?_, ?_⟩
    · exact floor_mul_nonneg (hd (1 + 2 * i)).1 (by norm_num)
    · exact floor_mul_le (hd (1 + 2 * i)).1 (hd (1 + 2 * i)).2 (by norm_num) (by norm_num)
  · intro hge
    unfold generateInteractionEvents
    rw [if_neg hge]
    have hcount : qFloorNat (draws 0 * 3) < 3 := by
      refine qFloorNat_lt (by norm_num) ?_
      have h1 := (hd 0).1
      have h2 := (hd 0).2
      push_cast
      nlinarith
    have hbaseItem : ∀ ev ∈ (List.range (qFloorNat (draws 0 * 3) + 1)).map (fun i =>
        ({ offsetMs := ⌊draws (1 + 2 * i) * 10000⌋
           interactionType := idleInteractionPick (draws (2 + 2 * i))
           uiElement := "EDITOR_PANE" } : InteractionEvent)),
        ev.uiElement = "EDITOR_PANE" ∧
        (ev.interactionType = "SCROLL" ∨ ev.interactionType = "MOUSE_OVER") ∧
        0 ≤ ev.offsetMs ∧ ev.offsetMs ≤ 10000 := by
      intro ev hev
      obtain ⟨i, _, rfl⟩ := List.mem_map.1 hev
      refine ⟨rfl, ?_, ?_, ?_⟩
      · unfold idleInteractionPick
        split
        · exact Or.inl rfl
        · exact Or.inr rfl
      · exact floor_mul_nonneg (hd (1 + 2 * i)).1 (by norm_num)
      · exact floor_mul_le (hd (1 + 2 * i)).1 (hd (1 + 2 * i)).2 (by norm_num) (by norm_num)
    have hlen : ((List.range (qFloorNat (draws 0 * 3) + 1)).map (fun i =>
        ({ offsetMs := ⌊draws (1 + 2 * i) * 10000⌋
           interactionType := idleInteractionPick (draws (2 + 2 * i))
           uiElement := "EDITOR_PANE" } : InteractionEvent))).length =
        qFloorNat (draws 0 * 3) + 1 := by simp
    by_cases hfoc : draws (1 + 2 * (qFloorNat (draws 0 * 3) + 1)) > 9/10
    · rw [if_pos hfoc]
      refine ⟨_, _, rfl, ?_, ?_, hbaseItem, Or.inr ⟨_, rfl, ?_, rfl, rfl, ?_⟩⟩
      · rw [hlen]; omega
      · rw [hlen]; omega
      · rw [hlen]; exact hfoc
      · unfold focusInteractionPick
        split
        · exact Or.inl rfl
        · exact Or.inr rfl
    · rw [if_neg hfoc]
      refine ⟨_, [], (List.append_nil _).symm, ?_, ?_, hbaseItem,
        Or.inl ⟨rfl, ?_⟩⟩
      · rw [hlen]; omega
      · rw [hlen]; omega
      · rw [hlen]; exact hfoc
  · intro r
    unfold idleInteractionPick
    split
    · simpa
    · constructor
      · intro hcon
        exact absurd hcon (by decide)
      · intro hr
        exact absurd hr (by assumption)

/-- The interaction-event guarantees instantiated at a concrete recent
activity gap and the constant draw one half. -/
theorem telemetry_interaction_events_spec_witness :
    3 ≤ (generateInteractionEvents 0 (fun _ => 1/2)).length ∧
    (generateInteractionEvents 0 (fun _ => 1/2)).length ≤ 7 ∧
    idleInteractionPick (7/10) = "SCROLL" := by
  have h := telemetry_interaction_events_spec 0 (fun _ => 1/2)
    (fun _ => ⟨by norm_num, by norm_num⟩)
  have ha := h.1 (by norm_num)
  exact ⟨ha.1, ha.2.1, (h.2.2 (7/10)).2 (by norm_num)⟩

/-- C8 counterexample: the idle branch draws `SCROLL` exactly on the
upper open interval (0.6, 1) of the uniform draw — a fraction of 2/5 of
the draws, not the claimed 60%: at the draw one half the code emits
`MOUSE_OVER` while a 60% `SCROLL` split over the uniform draw selects
`SCROLL` below 0.6. -/
theorem telemetry_scroll_probability_counterexample :
    idleInteractionPick (1/2) = "MOUSE_OVER" ∧
    idleInteractionPick (7/10) = "SCROLL" ∧
    {r : ℚ | 0 ≤ r ∧ r < 1 ∧ idleInteractionPick r = "SCROLL"} =
      Set.Ioo (3/5 : ℚ) 1 ∧
    (1 : ℚ) - 3/5 = 2/5 ∧ (2/5 : ℚ) ≠ 3/5 := by
  refine ⟨by unfold idleInteractionPick; norm_num,
    by unfold idleInteractionPick; norm_num, ?_, by norm_num, by norm_num⟩
  ext r
  simp only [Set.mem_setOf_eq, Set.mem_Ioo]
  unfold idleInteractionPick
  constructor
  · rintro ⟨h0, h1, hs⟩
    refine ⟨?_, h1⟩
    by_contra hle
    rw [if_neg (by simpa using hle)] at hs
    exact absurd hs (by decide)
  · rintro ⟨h35, h1⟩
    refine ⟨by linarith, h1, ?_⟩
    rw [if_pos (by simpa using h35)]

theorem eraseIdx_map {α β : Type} (f : α → β) :
    ∀ (l : List α) (i : Nat), (l.eraseIdx i).map f = (l.map f).eraseIdx i := by
  intro l
  induction l with
  | nil => intro i; simp
  | cons a t ih =>
    intro i
    cases i with
    | zero => simp
    | succ j => simp [List.eraseIdx_cons_succ, ih]

theorem nodup_get_not_mem_eraseIdx {α : Type} [DecidableEq α] {l : List α}
    (h : l.Nodup) (i : Nat) (hi : i < l.length) :
    l.get ⟨i, hi⟩ ∉ l.eraseIdx i := by
  have he : l.erase (l.get ⟨i, hi⟩) = l.eraseIdx i := List.Nodup.erase_get h ⟨i, hi⟩
  rw [← he]
  exact List.Nodup.not_mem_erase h

theorem goodPool_regen (ts : Int) (st : PoolFingerprintState) (h : GoodPoolState st) :
    GoodPoolState (regenerateFingerprint ts st) := by
  obtain ⟨hlen, hnodup, hlt⟩ := h
  have hfp : poolFingerprints (regenerateFingerprint ts st) =
      st.nextFresh :: (poolFingerprints st).take MAX_FINGERPRINT_HISTORY := by
    unfold poolFingerprints regenerateFingerprint
    simp [List.map_take]
  refine ⟨?_, ?_, ?_⟩
  · unfold regenerateFingerprint
    simp only [List.length_take]
    omega
  · rw [hfp]
    refine List.nodup_cons.mpr ⟨?_, hnodup.sublist (List.take_sublist _ _)⟩
    intro hmem
    exact absurd (hlt _ (List.mem_of_mem_take hmem)) (lt_irrefl _)
  · intro f hf
    rw [hfp] at hf
    have hnext : (regenerateFingerprint ts st).nextFresh = st.nextFresh + 1 := rfl
    rw [hnext]
    rcases List.mem_cons.1 hf with rfl | hf
    · omega
    · have := hlt _ (List.mem_of_mem_take hf)
      omega

theorem restoreFingerprint_ok (ts : Int) (st : PoolFingerprintState) {i : Nat}
    (hi : i < st.history.length) :
    restoreFingerprint ts st i =
      Except.ok ((st.history.get ⟨i, hi⟩).fingerprint,
        { current := (st.history.get ⟨i, hi⟩).fingerprint
          history :=
            { fingerprint := st.current, reason := "restored", timestamp := ts } ::
              st.history.eraseIdx i
          nextFresh := st.nextFresh }) := by
  unfold restoreFingerprint
  rw [dif_pos hi]
  rfl

theorem restoreFingerprint_err (ts : Int) (st : PoolFingerprintState) {i : Nat}
    (hi : ¬ i < st.history.length) :
    restoreFingerprint ts st i = Except.error "InvalidArgument" := by
  unfold restoreFingerprint
  rw [dif_neg hi]

theorem goodPool_restoreState (ts : Int) (st : PoolFingerprintState)
    (h : GoodPoolState st) {i : Nat} (hi : i < st.history.length) :
    GoodPoolState
      { current := (st.history.get ⟨i, hi⟩).fingerprint
        history :=
          { fingerprint := st.current, reason := "restored", timestamp := ts } ::
            st.history.eraseIdx i
        nextFresh := st.nextFresh } := by
  obtain ⟨hlen, hnodup, hlt⟩ := h
  have hiL : i < (st.history.map (fun en => en.fingerprint)).length := by
    simpa using hi
  have hget : (st.history.map (fun en => en.fingerprint)).get ⟨i, hiL⟩ =
      (st.history.get ⟨i, hi⟩).fingerprint := by
    simp
  unfold poolFingerprints at hnodup hlt
  have hcur : st.current ∉ st.history.map (fun en => en.fingerprint) :=
    (List.nodup_cons.mp hnodup).1
  have hL : (st.history.map (fun en => en.fingerprint)).Nodup :=
    (List.nodup_cons.mp hnodup).2
  have hE : (st.history.eraseIdx i).map (fun en => en.fingerprint) =
      (st.history.map (fun en => en.fingerprint)).eraseIdx i := eraseIdx_map _ _ _
  have hgmem : (st.history.get ⟨i, hi⟩).fingerprint ∈
      st.history.map (fun en => en.fingerprint) := by
    rw [← hget]
    exact List.get_mem _ _ _
  have hgnot : (st.history.get ⟨i, hi⟩).fingerprint ∉
      (st.history.map (fun en => en.fingerprint)).eraseIdx i := by
    rw [← hget]
    exact nodup_get_not_mem_eraseIdx hL i hiL
  have hsub : List.Sublist ((st.history.map (fun en => en.fingerprint)).eraseIdx i)
      (st.history.map (fun en => en.fingerprint)) := List.eraseIdx_sublist _ _
  refine ⟨?_, ?_, ?_⟩
  · simp only [List.length_cons, List.length_eraseIdx_of_lt hi]
    omega
  · unfold poolFingerprints
    simp only [List.map_cons, hE]
    refine List.nodup_cons.mpr ⟨?_, ?_⟩
    · intro hmem
      rcases List.mem_cons.1 hmem with heq | hmem
      · rw [heq] at hgmem
        exact hcur hgmem
      · exact hgnot hmem
    · refine List.nodup_cons.mpr ⟨?_, hL.sublist hsub⟩
      intro hmem
      exact hcur (hsub.mem hmem)
  · intro f hf
    unfold poolFingerprints at hf
    simp only [List.map_cons, hE] at hf
    rcases List.mem_cons.1 hf with rfl | hf
    · exact hlt _ (List.mem_cons_of_mem _ hgmem)
    · rcases List.mem_cons.1 hf with rfl | hf
      · exact hlt _ (List.mem_cons_self _ _)
      · exact hlt _ (List.mem_cons_of_mem _ (hsub.mem hf))

theorem goodPool_applyOp (st : PoolFingerprintState) (op : PoolFingerprintOp)
    (h : GoodPoolState st) : GoodPoolState (applyPoolOp st op) := by
  cases op with
  | regen ts => exact goodPool_regen ts st h
  | restore ts i =>
    simp only [applyPoolOp]
    by_cases hi : i < st.history.length
    · rw [restoreFingerprint_ok ts st hi]
      exact goodPool_restoreState ts st h hi
    · rw [restoreFingerprint_err ts st hi]
      exact h

/-- C3: starting from any well-formed account state, after any finite
sequence of regenerate/restore operations through the pool the
fingerprint history has at most `MAX_FINGERPRINT_HISTORY = 5` entries
and the current fingerprint never occurs in its own history. -/
theorem poolFingerprintHistory_invariant (st : PoolFingerprintState)
    (h : GoodPoolState st) (ops : List PoolFingerprintOp) :
    (runPoolOps st ops).history.length ≤ MAX_FINGERPRINT_HISTORY ∧
    (runPoolOps st ops).current ∉
      (runPoolOps st ops).history.map (fun en => en.fingerprint) := by
  have hg : GoodPoolState (runPoolOps st ops) := by
    induction ops generalizing st with
    | nil => simpa [runPoolOps] using h
    | cons op ops ih =>
      have hstep : runPoolOps st (op :: ops) = runPoolOps (applyPoolOp st op) ops := rfl
      rw [hstep]
      exact ih _ (goodPool_applyOp st op h)
  have hnodup := hg.2.1
  unfold poolFingerprints at hnodup
  exact ⟨hg.1, (List.nodup_cons.mp hnodup).1⟩

/-- The history invariant at a concrete account state driven through
seven concrete regenerate/restore operations. -/
theorem poolFingerprintHistory_invariant_witness :
    (runPoolOps poolStateExample
        [PoolFingerprintOp.regen 2, PoolFingerprintOp.regen 3,
         PoolFingerprintOp.restore 4 1, PoolFingerprintOp.regen 5,
         PoolFingerprintOp.regen 6, PoolFingerprintOp.regen 7,
         PoolFingerprintOp.regen 8]).history.length ≤ MAX_FINGERPRINT_HISTORY ∧
    (runPoolOps poolStateExample
        [PoolFingerprintOp.regen 2, PoolFingerprintOp.regen 3,
         PoolFingerprintOp.restore 4 1, PoolFingerprintOp.regen 5,
         PoolFingerprintOp.regen 6, PoolFingerprintOp.regen 7,
         PoolFingerprintOp.regen 8]).current ∉
      (runPoolOps poolStateExample
        [PoolFingerprintOp.regen 2, PoolFingerprintOp.regen 3,
         PoolFingerprintOp.restore 4 1, PoolFingerprintOp.regen 5,
         PoolFingerprintOp.regen 6, PoolFingerprintOp.regen 7,
         PoolFingerprintOp.regen 8]).history.map (fun en => en.fingerprint) :=
  poolFingerprintHistory_invariant poolStateExample
    (by unfold GoodPoolState poolFingerprints poolStateExample; decide)
    [PoolFingerprintOp.regen 2, PoolFingerprintOp.regen 3,
     PoolFingerprintOp.restore 4 1, PoolFingerprintOp.regen 5,
     PoolFingerprintOp.regen 6, PoolFingerprintOp.regen 7,
     PoolFingerprintOp.regen 8]

/-- C4: on a well-formed account state, `restoreFingerprint` with an
in-range index pushes the old current fingerprint to the history head
with reason `restored`, removes the entry originally at `historyIndex`
(sitting at `historyIndex + 1` after the push), installs that entry's
fingerprint as current, and leaves no occurrence of the restored
fingerprint in the history; an out-of-range index fails with
`InvalidArgument`. -/
theorem restoreFingerprint_spec (ts : Int) (st : PoolFingerprintState)
    (h : GoodPoolState st) (i : Nat) :
    (∀ hi : i < st.history.length,
      restoreFingerprint ts st i =
        Except.ok ((st.history.get ⟨i, hi⟩).fingerprint,
          { current := (st.history.get ⟨i, hi⟩).fingerprint
            history :=
              { fingerprint := st.current, reason := "restored", timestamp := ts } ::
                st.history.eraseIdx i
            nextFresh := st.nextFresh }) ∧
      (st.history.get ⟨i, hi⟩).fingerprint ∉
        ({ fingerprint := st.current, reason := "restored", timestamp := ts } ::
            st.history.eraseIdx i).map (fun en => en.fingerprint)) ∧
    (st.history.length ≤ i →
      restoreFingerprint ts st i = Except.error "InvalidArgument") := by
  constructor
  · intro hi
    refine ⟨restoreFingerprint_ok ts st hi, ?_⟩
    have hg := goodPool_restoreState ts st h hi
    have hnodup := hg.2.1
    unfold poolFingerprints at hnodup
    exact (List.nodup_cons.mp hnodup).1
  · intro hge
    exact restoreFingerprint_err ts st (by omega)

/-- Restoring history index 1 of the concrete example account returns
fingerprint 0, pushes fingerprint 2 to the history head with reason
`restored`, drops the restored entry, and index 2 is rejected. -/
theorem restoreFingerprint_spec_witness :
    restoreFingerprint 5 poolStateExample 1 =
      Except.ok (0,
        { current := 0
          history := [{ fingerprint := 2, reason := "restored", timestamp := 5 },
                      { fingerprint := 1, reason := "regenerated", timestamp := 1 }]
          nextFresh := 3 }) ∧
    (0 : Nat) ∉
      ([{ fingerprint := 2, reason := "restored", timestamp := 5 },
        { fingerprint := 1, reason := "regenerated", timestamp := 1 }] :
          List PoolHistoryEntry).map (fun en => en.fingerprint) ∧
    restoreFingerprint 5 poolStateExample 2 = Except.error "InvalidArgument" := by
  have hg : GoodPoolState poolStateExample := by
    unfold GoodPoolState poolFingerprints poolStateExample
    decide
  have h1 := (restoreFingerprint_spec 5 poolStateExample hg 1).1 (by decide)
  have h2 := (restoreFingerprint_spec 5 poolStateExample hg 2).2 (by decide)
  exact ⟨h1.1, h1.2, h2⟩

theorem foldl_calls_inflight (now : Int) :
    ∀ (callers : List Nat) (cell : TokenCell),
      tokenEntryValid now cell.cache = false → cell.inflight = true →
      List.foldl (stepTokenCall now) cell callers =
        { cell with pending := cell.pending ++ callers } := by
  intro callers
  induction callers with
  | nil =>
    intro cell _ _
    simp
  | cons c cs ih =>
    intro cell h1 h2
    rw [List.foldl_cons]
    have hstep : stepTokenCall now cell c = { cell with pending := cell.pending ++ [c] } := by
      unfold stepTokenCall
      rw [if_neg (by simp [h1]), if_pos h2]
    rw [hstep]
    rw [ih ({ cell with pending := cell.pending ++ [c] }) h1 h2]
    simp

/-- C9: with an invalid cache entry, any number of callers entering
`getTokenForAccount` before the refresh resolves trigger exactly one
OAuth network refresh, and every one of them observes the same token. -/
theorem getTokenForAccount_singleflight (now expiresAt : Int)
    (cache0 : Option TokenCacheEntry)
    (hinvalid : tokenEntryValid now cache0 = false)
    (callers : List Nat) (hne : callers ≠ []) (token : Nat) :
    (stepTokenRefreshDone
        (List.foldl (stepTokenCall now) (initTokenCell cache0) callers)
        token expiresAt).refreshCount = 1 ∧
    ∀ c ∈ callers,
      (stepTokenRefreshDone
          (List.foldl (stepTokenCall now) (initTokenCell cache0) callers)
          token expiresAt).results c = some token := by
  cases callers with
  | nil => exact absurd rfl hne
  | cons c0 cs =>
    have hstep : stepTokenCall now (initTokenCell cache0) c0 =
        { initTokenCell cache0 with
          inflight := true, pending := [c0], refreshCount := 0 + 1 } := by
      unfold stepTokenCall
      rw [if_neg (by simp [initTokenCell, hinvalid]), if_neg (by simp [initTokenCell])]
      rfl
    have hfold : List.foldl (stepTokenCall now) (initTokenCell cache0) (c0 :: cs) =
        { initTokenCell cache0 with
          inflight := true, pending := c0 :: cs, refreshCount := 0 + 1 } := by
      rw [List.foldl_cons, hstep,
        foldl_calls_inflight now cs _ (by simpa [initTokenCell] using hinvalid) rfl]
      simp
    rw [hfold]
    unfold stepTokenRefreshDone
    rw [if_pos rfl]
    refine ⟨rfl, ?_⟩
    intro c hc
    simp only
    rw [if_pos hc]

/-- The singleflight guarantee at a concrete empty cache and the three
concurrent callers 7, 8 and 9. -/
theorem getTokenForAccount_singleflight_witness :
    (stepTokenRefreshDone
        (List.foldl (stepTokenCall 0) (initTokenCell none) [7, 8, 9])
        42 1000000).refreshCount = 1 ∧
    (stepTokenRefreshDone
        (List.foldl (stepTokenCall 0) (initTokenCell none) [7, 8, 9])
        42 1000000).results 7 = some 42 ∧
    (stepTokenRefreshDone
        (List.foldl (stepTokenCall 0) (initTokenCell none) [7, 8, 9])
        42 1000000).results 9 = some 42 := by
  have h := getTokenForAccount_singleflight 0 1000000 none rfl [7, 8, 9]
    (by decide) 42
  exact ⟨h.1, h.2 7 (by decide), h.2 9 (by decide)⟩

/-- C6: the response converter is total on any input carrying a
`candidates` array (present or absent, possibly empty): the envelope has
type `message`, role `assistant` and the given model name, the content
holds at least one block, and an empty or missing `candidates` yields
exactly one empty text block. -/
theorem convertGoogleToAnthropic_total (genId : Nat → String)
    (googleResp : GoogleResponse) (modelName : String) :
    (convertGoogleToAnthropic genId googleResp modelName).type = "message" ∧
    (convertGoogleToAnthropic genId googleResp modelName).role = "assistant" ∧
    (convertGoogleToAnthropic genId googleResp modelName).model = modelName ∧
    1 ≤ (convertGoogleToAnthropic genId googleResp modelName).content.length ∧
    ((googleResp.candidates = none ∨ googleResp.candidates = some []) →
      (convertGoogleToAnthropic genId googleResp modelName).content =
        [AnthropicBlock.textBlock ""]) := by
  have hcontent : (convertGoogleToAnthropic genId googleResp modelName).content =
      if (googleContentBlocks genId googleResp.candidates).isEmpty then
        [AnthropicBlock.textBlock ""]
      else googleContentBlocks genId googleResp.candidates := rfl
  refine ⟨rfl, rfl, rfl, ?_, ?_⟩
  · rw [hcontent]
    split
    · simp
    · rename_i hb
      have hne : googleContentBlocks genId googleResp.candidates ≠ [] := by
        intro h0
        rw [h0] at hb
        exact hb rfl
      have := List.length_pos.mpr hne
      omega
  · rintro (hc | hc) <;> rw [hcontent] <;> rw [hc] <;> rfl

/-- The converter output at a concrete response with an empty
`candidates` array. -/
theorem convertGoogleToAnthropic_total_witness :
    (convertGoogleToAnthropic (fun _ => "") ⟨some [], none⟩ "m").content =
      [AnthropicBlock.textBlock ""] ∧
    (convertGoogleToAnthropic (fun _ => "") ⟨some [], none⟩ "m").type = "message" ∧
    (convertGoogleToAnthropic (fun _ => "") ⟨some [], none⟩ "m").model = "m" :=
  ⟨(convertGoogleToAnthropic_total (fun _ => "") ⟨some [], none⟩ "m").2.2.2.2 (Or.inr rfl),
   (convertGoogleToAnthropic_total (fun _ => "") ⟨some [], none⟩ "m").1,
   (convertGoogleToAnthropic_total (fun _ => "") ⟨some [], none⟩ "m").2.2.1⟩
